import Mathlib

/-!
Verification of the redcap-mcs parsing and aggregation core.

The Python sources are shallowly embedded: text is modelled as `List Char`
(Lean's built-in `String` functions do not reduce in the kernel), Python
`float` values as exact rationals `ℚ`, `None`-able values as `Option`, and
`dict`s as association lists.  Each embedded definition mirrors one Python
function of the repository; the theorems below settle the specification
claims against these embeddings.
-/

namespace RedcapMcs

/-! ## Character-list string utilities -/

/-- Membership of `p` as a contiguous infix of a character list, modelling
Python's `in` operator on strings. -/
def charsInfix (p : List Char) : List Char → Bool
  | [] => p.isEmpty
  | c :: rest => p.isPrefixOf (c :: rest) || charsInfix p rest

/-- ASCII lower-casing of a character list, modelling `str.lower()`. -/
def lowerChars (s : List Char) : List Char := s.map Char.toLower

/-- Case-insensitive containment, modelling case-folded substring tests
(`case=False` regex containment of a literal pattern, `x in s.lower()`). -/
def containsCI (s p : List Char) : Bool := charsInfix (lowerChars p) (lowerChars s)

/-- Strip leading whitespace, modelling `str.lstrip()`. -/
def lstrip (s : List Char) : List Char := s.dropWhile Char.isWhitespace

/-- Strip trailing whitespace, modelling `str.rstrip()`. -/
def rstrip (s : List Char) : List Char := (s.reverse.dropWhile Char.isWhitespace).reverse

/-- Strip whitespace on both ends, modelling `str.strip()`. -/
def stripChars (s : List Char) : List Char := rstrip (lstrip s)

/-- Split a character list on every occurrence of the delimiter `d`,
modelling `line.split(delimiter)` for the one-character delimiters
(`";"` / `"|"`) this program uses. -/
def splitOnCharAux (d : Char) : List Char → List Char → List (List Char)
  | [], cur => [cur.reverse]
  | c :: rest, cur =>
      if c = d then cur.reverse :: splitOnCharAux d rest []
      else splitOnCharAux d rest (c :: cur)

/-- See `splitOnCharAux`. -/
def splitOnChar (d : Char) (s : List Char) : List (List Char) := splitOnCharAux d s []

/-- The text before the first delimiter, modelling `line.split(delim, 1)[0]`. -/
def firstField (d : Char) (s : List Char) : List Char := s.takeWhile (· ≠ d)

/-- Join lines with a newline character, modelling `"\n".join(lines)`. -/
def joinNL : List (List Char) → List Char
  | [] => []
  | [l] => l
  | l :: rest => l ++ '\n' :: joinNL rest

/-- Split text into lines at `\r\n`, `\r` or `\n`, modelling
`str.splitlines()` (the separators that occur in this program's inputs). -/
def splitlinesAux : List Char → List Char → List (List Char)
  | [], cur => if cur.isEmpty then [] else [cur.reverse]
  | '\r' :: '\n' :: rest, cur => cur.reverse :: splitlinesAux rest []
  | '\r' :: rest, cur => cur.reverse :: splitlinesAux rest []
  | '\n' :: rest, cur => cur.reverse :: splitlinesAux rest []
  | c :: rest, cur => splitlinesAux rest (c :: cur)

/-- See `splitlinesAux`. -/
def splitlines (s : List Char) : List (List Char) := splitlinesAux s []

/-! ## Numeric utilities -/

/-- Numeric value of a decimal digit character. -/
def digitVal (c : Char) : ℕ := c.toNat - '0'.toNat

/-- The natural number denoted by a list of decimal digit characters. -/
def digitsToNat (ds : List Char) : ℕ := ds.foldl (fun a c => 10 * a + digitVal c) 0

/-- Parse a plain decimal numeral (optional sign, digits, optional fractional
part), modelling Python's `float()` on the decimal notation this program
feeds it.  Returns `none` on anything else. -/
def parseFloatChars (s : List Char) : Option ℚ :=
  let t := stripChars s
  let neg : Bool := match t with
    | '-' :: _ => true
    | _ => false
  let t1 : List Char := match t with
    | '-' :: r => r
    | '+' :: r => r
    | _ => t
  let ip := t1.takeWhile Char.isDigit
  let r1 := t1.drop ip.length
  let mk : ℕ → ℕ → Option ℚ := fun n k =>
    some (mkRat (if neg then -(n : ℤ) else (n : ℤ)) (10 ^ k))
  match r1 with
  | [] => if ip.isEmpty then none else mk (digitsToNat ip) 0
  | '.' :: r2 =>
      let fp := r2.takeWhile Char.isDigit
      if ¬(r2.drop fp.length).isEmpty then none
      else if ip.isEmpty ∧ fp.isEmpty then none
      else mk (digitsToNat ip * 10 ^ fp.length + digitsToNat fp) fp.length
  | _ => none

/-- Insert into a sorted list (ascending). -/
def insertSorted (x : ℚ) : List ℚ → List ℚ
  | [] => [x]
  | y :: ys => if x ≤ y then x :: y :: ys else y :: insertSorted x ys

/-- Sort a list of rationals ascending (insertion sort). -/
def sortRat (l : List ℚ) : List ℚ := l.foldr insertSorted []

/-- Median with mean-of-two-middles interpolation for even length, modelling
`pandas.Series.median()` on the filtered day values.  (The `0` default for the
empty list is never reached: every caller first checks for emptiness.) -/
def pandasMedian (l : List ℚ) : ℚ :=
  let s := sortRat l
  let n := s.length
  if n = 0 then 0
  else if n % 2 = 1 then s.getD (n / 2) 0
  else (s.getD (n / 2 - 1) 0 + s.getD (n / 2) 0) / 2

/-- Round to the nearest integer, ties to even, modelling Python's `round`. -/
def roundHalfEven (x : ℚ) : ℤ :=
  let f : ℤ := ⌊x⌋
  let r : ℚ := x - f
  if r < 1 / 2 then f
  else if 1 / 2 < r then f + 1
  else if f % 2 = 0 then f else f + 1

/-- Round to `d` decimal places, modelling Python's `round(x, d)` (exactly,
on the rational values this model computes with). -/
def roundTo (d : ℕ) (x : ℚ) : ℚ := (roundHalfEven (x * 10 ^ d) : ℚ) / 10 ^ d

/-- A Python cell value: either a number or free text.  Mirrors the
`float`-or-`str` union the parsers store in the `value` column. -/
inductive PyVal where
  | num (q : ℚ)
  | text (s : List Char)
deriving DecidableEq

/-! ## `LabModel.set_derived_fields` (src/schemas/db_schemas/lab.py) -/

/-- The fields of `LabModel` read or written by `set_derived_fields`
(src/schemas/db_schemas/lab.py, lines 93-113).  All other fields of the
model are neither read nor written by that method. -/
structure LabRecord where
  pct : Option ℚ
  crp : Option ℚ
  act : Option ℚ
  fhb : Option ℚ
  hapto : Option ℚ
  bili : Option ℚ
  albumin : Option ℚ
  post_pct : Option ℤ
  post_crp : Option ℤ
  post_act : Option ℤ
  hemolysis : Option ℤ
deriving DecidableEq

/-- Python truthiness of an `Optional[float]`: `None`, `0.0` and `-0.0` are
falsy, every other float is truthy. -/
def truthyOpt (o : Option ℚ) : Bool :=
  match o with
  | none => false
  | some v => decide (v ≠ 0)

/-- `LabModel.set_derived_fields` (src/schemas/db_schemas/lab.py 93-113):
sets the presence flags `post_pct` / `post_crp` / `post_act`, computes
`hemolysis` by truthiness of `fhb` / `hapto` / `bili`, and rescales
`albumin` and `crp` in place by `round(x / 10, 1)`. -/
def labSetDerivedFields (r : LabRecord) : LabRecord :=
  { r with
    post_pct := some (if r.pct.isSome then 1 else 0)
    post_crp := some (if r.crp.isSome then 1 else 0)
    post_act := some (if r.act.isSome then 1 else 0)
    hemolysis := some (if truthyOpt r.fhb || truthyOpt r.hapto || truthyOpt r.bili then 1 else 0)
    albumin := r.albumin.map (fun a => roundTo 1 (a / 10))
    crp := r.crp.map (fun c => roundTo 1 (c / 10)) }

/-- A `LabModel` whose only populated laboratory value is `albumin = 40.0`
(g/L); used to exercise the derived-field pass. -/
def labAlbuminExample : LabRecord :=
  { pct := none, crp := none, act := none, fhb := none, hapto := none, bili := none
    albumin := some 40
    post_pct := none, post_crp := none, post_act := none, hemolysis := none }

/-! ## `detect_delimiter` (src/services/delimiter_auto_detecion.py) -/

/-- Count occurrences of a character, modelling `text.count(c)`. -/
def countChar (c : Char) (s : List Char) : ℕ := s.count c

/-- `detect_delimiter` (src/services/delimiter_auto_detecion.py): counts `;`
and `|`; returns the strictly more frequent one provided its count exceeds
20, otherwise `none`. -/
def detect_delimiter (text : List Char) : Option (List Char) :=
  let cs := countChar ';' text
  let cp := countChar '|' text
  if cs > cp then (if cs > 20 then some [';'] else none)
  else if cp > cs then (if cp > 20 then some ['|'] else none)
  else none

/-- Modelled from the claim's words (for comparison only): return the more
frequent delimiter; report `none` exactly when the counts are equal or the
winning count is below 20. -/
def specDetectDelimiter (text : List Char) : Option (List Char) :=
  let cs := countChar ';' text
  let cp := countChar '|' text
  if cs > cp then (if cs < 20 then none else some [';'])
  else if cp > cs then (if cp < 20 then none else some ['|'])
  else none

/-! ## `DataParserBase._clean_csv` (src/services/data_parser.py 79-112,
src/mlife_core/services/parsers/base.py 97-130; both copies are identical) -/

/-- A banner line: after `lstrip`, contains `"Ausdruck: Gesamte Akte"`. -/
def isBannerLine (l : List Char) : Bool :=
  charsInfix "Ausdruck: Gesamte Akte".data (lstrip l)

/-- A disclaimer line: after `lstrip`, contains one of the two fixed
disclaimer texts. -/
def isDisclaimerLine (l : List Char) : Bool :=
  charsInfix "Bei aktuell laufenden Statusmodulen".data (lstrip l) ||
  charsInfix "Datum/Uhrzeit bezieht sich jeweils auf den Intervallstart.".data (lstrip l)

/-- Whether the line contains `"Datum/Uhrzeit"` (after `lstrip`); a
disclaimer line with this marker also discards the line preceding it. -/
def hasDatumMarker (l : List Char) : Bool :=
  charsInfix "Datum/Uhrzeit".data (lstrip l)

/-- Continuation of the interval-notice pattern after the literal
`"Intervall:"`: `\s*` then exactly two digits then `\s*` then `"min."`
(the regex `Intervall:\s*\d{2}\s*min\.,?`; the trailing `,?` is optional
and does not affect match existence). -/
def intervallAfter (cs : List Char) : Bool :=
  match cs.dropWhile Char.isWhitespace with
  | a :: b :: rest =>
      a.isDigit && b.isDigit && "min.".data.isPrefixOf (rest.dropWhile Char.isWhitespace)
  | _ => false

/-- `re.search(r"Intervall:\s*\d{2}\s*min\.,?", line)` as a Boolean: some
position of the line starts a match. -/
def intervallSearch : List Char → Bool
  | [] => false
  | c :: rest =>
      ("Intervall:".data.isPrefixOf (c :: rest) && intervallAfter ((c :: rest).drop 10)) ||
      intervallSearch rest

/-- An interval-notice line: the regex matches the `lstrip`ped line. -/
def isIntervallLine (l : List Char) : Bool := intervallSearch (lstrip l)

/-- The `i`-th line, with an empty default for out-of-range indices (such
indices only arise for the harmless `skip.add(i - 1)` at `i = 0` and the
`len(lines) - 1` entry of an empty file). -/
def lineAt (ls : List (List Char)) (i : ℕ) : List Char := ls.getD i []

/-- The indices of the banner lines, in order (the `headers` list of
`_clean_csv`).  The `elif` chain makes banner classification take priority
over the disclaimer and interval checks. -/
def bannerIdxs (ls : List (List Char)) : List ℕ :=
  (List.range ls.length).filter (fun i => isBannerLine (lineAt ls i))

/-- Whether index `i` lands in the skip set of `_clean_csv`: the last line,
disclaimer lines, the predecessor of a `"Datum/Uhrzeit"` disclaimer line,
interval-notice lines, the 8-line block from each banner, and the line
before every banner but the first. -/
def cleanSkip (ls : List (List Char)) (i : ℕ) : Bool :=
  (i + 1 = ls.length) ||
  (¬isBannerLine (lineAt ls i) && isDisclaimerLine (lineAt ls i)) ||
  (¬isBannerLine (lineAt ls (i + 1)) && isDisclaimerLine (lineAt ls (i + 1)) &&
    hasDatumMarker (lineAt ls (i + 1)) && i + 1 < ls.length) ||
  (¬isBannerLine (lineAt ls i) && ¬isDisclaimerLine (lineAt ls i) &&
    isIntervallLine (lineAt ls i)) ||
  (bannerIdxs ls).any (fun h => h ≤ i && i < h + 8) ||
  ((bannerIdxs ls).drop 1).any (fun h => i + 1 = h)

/-- `DataParserBase._clean_csv` on the split lines: keep, in order, every
line whose index is not in the skip set. -/
def cleanLines (ls : List (List Char)) : List (List Char) :=
  (List.range ls.length).filterMap
    (fun i => if cleanSkip ls i then none else some (lineAt ls i))

/-- `DataParserBase._clean_csv` as text-to-text: split into lines, drop the
skip set, join with `"\n"`. -/
def cleanCsv (text : List Char) : List Char := joinNL (cleanLines (splitlines text))

/-- A line touched by none of the cleaner's markers (no banner, no
disclaimer text, no interval-notice match). -/
def plainLine (l : List Char) : Bool :=
  !isBannerLine l && !isDisclaimerLine l && !isIntervallLine l

/-! ## `DataParserBase._split_blocks` (src/services/data_parser.py 114-155,
src/mlife_core/services/parsers/base.py 132-173; both copies are identical) -/

/-- The static section registry `self.headers` of `DataParserBase.__init__`:
canonical section name to the literal first-column header tokens that open a
block of that section. -/
def headersRegistry : List (List Char × List (List Char)) :=
  [ ("Vitaldaten".data,
      ["Online erfasste Vitaldaten".data, "Manuell erfasste Vitaldaten".data]),
    ("Respiratordaten".data,
      ["Online erfasste Respiratorwerte".data, "Beatmung".data,
       "Manuell erfasste Respiratorwerte".data]),
    ("Labor".data,
      ["Labor: Blutgase arteriell".data, "Labor: Blutgase venös".data,
       "Labor: Blutgase gv".data, "Labor: Blutgase unspez.".data,
       "Labor: Blutbild".data, "Labor: Differentialblutbild".data,
       "Labor: Blutgruppe".data, "Labor: Gerinnung".data, "Labor: TEG".data,
       "Labor: TAT".data, "Labor: Enzyme".data, "Labor: Retention".data,
       "Labor: Lipide".data, "Labor: Proteine".data, "Labor: Elektrolyte".data,
       "Labor: Blutzucker".data, "Labor: Klinische Chemie".data,
       "Labor: Medikamentenspiegel".data, "Labor: Schilddrüse".data,
       "Labor: Serologie/Infektion".data]),
    ("Medikamentengaben".data, ["Medikamentengaben".data]),
    ("Bilanz".data, ["Bilanz".data]),
    ("ALLE Patientendaten".data, ["ALLE Patientendaten".data]) ]

/-- The `key` computed for a line: `line.split(self.delimiter, 1)[0].strip()`. -/
def blockKey (d : Char) (line : List Char) : List Char := stripChars (firstField d line)

/-- The first registry section whose token list contains `key`, modelling the
`for category, blocks in self.headers.items()` lookup. -/
def findCategory (key : List Char) : Option (List Char) :=
  headersRegistry.findSome? (fun p => if p.2.contains key then some p.1 else none)

/-- Association-list update with dict-assignment semantics: replace the value
of the (unique) existing key in place, else append the new binding. -/
def assocSet {K V : Type} [DecidableEq K] : List (K × V) → K → V → List (K × V)
  | [], k, v => [(k, v)]
  | e :: rest, k, v => if e.1 = k then (k, v) :: rest else e :: assocSet rest k v

/-- Association-list lookup, modelling `dict` access. -/
def assocGet {K V : Type} [DecidableEq K] (m : List (K × V)) (k : K) : Option V :=
  (m.find? (fun e => decide (e.1 = k))).map (fun e => e.2)

/-- Walker state of `_split_blocks`: current section, current block token,
buffered lines, and the result mapping keyed by `(section, header_token)`. -/
structure SBState where
  cat : Option (List Char)
  blk : Option (List Char)
  buffer : List (List Char)
  result : List ((List Char × List Char) × List Char)
deriving DecidableEq

/-- Flush the buffer of `_split_blocks`:
`result[current_category][current_block] = "\n".join(buffer).strip()`,
guarded by `if current_category and current_block and buffer`. -/
def sbFlush (st : SBState) : List ((List Char × List Char) × List Char) :=
  match st.cat, st.blk with
  | some c, some b =>
      if st.buffer.isEmpty then st.result
      else assocSet st.result (c, b) (stripChars (joinNL st.buffer))
  | _, _ => st.result

/-- One line of the `_split_blocks` walk: a line whose key is a registered
header token flushes the previous buffer and opens a new block; any other
line is buffered. -/
def sbStep (d : Char) (st : SBState) (line : List Char) : SBState :=
  let key := blockKey d line
  match findCategory key with
  | some cat => { cat := some cat, blk := some key, buffer := [], result := sbFlush st }
  | none => { st with buffer := st.buffer ++ [line] }

/-- `DataParserBase._split_blocks` on cleaned lines: fold the walker over the
lines and flush the final buffer.  The result maps `(section, header_token)`
to the saved block text. -/
def splitBlocksLines (d : Char) (lines : List (List Char)) :
    List ((List Char × List Char) × List Char) :=
  sbFlush (lines.foldl (sbStep d) ⟨none, none, [], []⟩)

/-! ## Timestamp extraction (`_parse_timestamp`, `_extract_from_cell`;
src/mlife_core/services/parsers/base.py 175-188 and medication.py 56-61) -/

/-- A minute-precision timestamp as produced by
`datetime.strptime(.., "%d.%m.%y %H:%M" / "%d.%m.%Y %H:%M")`. -/
structure PyDateTime where
  year : ℕ
  month : ℕ
  day : ℕ
  hour : ℕ
  minute : ℕ
deriving DecidableEq

/-- Length of a month, with the Gregorian leap rule (as `datetime.date`
validates it). -/
def daysInMonth (y m : ℕ) : ℕ :=
  if m = 2 then (if (y % 4 = 0 ∧ y % 100 ≠ 0) ∨ y % 400 = 0 then 29 else 28)
  else if m = 4 ∨ m = 6 ∨ m = 9 ∨ m = 11 then 30
  else 31

/-- Calendar validation performed by `datetime.strptime`: reject impossible
dates and times. -/
def mkDateTime (y mo d h mi : ℕ) : Option PyDateTime :=
  if 1 ≤ mo ∧ mo ≤ 12 ∧ 1 ≤ d ∧ d ≤ daysInMonth y mo ∧ h ≤ 23 ∧ mi ≤ 59 then
    some ⟨y, mo, d, h, mi⟩
  else none

/-- The `%y` century rule of `strptime`: `00`-`68` map to `20xx`,
`69`-`99` to `19xx`. -/
def centuryOf (yy : ℕ) : ℕ := if yy ≤ 68 then 2000 + yy else 1900 + yy

/-- The `" %H:%M"` tail of both formats: at least one whitespace character
(a literal blank in a `strptime` format matches `\s+`), then `HH:MM`,
consuming the whole remainder. -/
def parseTimeTail (y mo d : ℕ) : List Char → Option PyDateTime
  | c :: rest =>
      if c.isWhitespace then
        match rest.dropWhile Char.isWhitespace with
        | [h1, h2, ':', m1, m2] =>
            if h1.isDigit ∧ h2.isDigit ∧ m1.isDigit ∧ m2.isDigit then
              mkDateTime y mo d (10 * digitVal h1 + digitVal h2)
                (10 * digitVal m1 + digitVal m2)
            else none
        | _ => none
      else none
  | [] => none

/-- `DataParserBase._parse_timestamp`: strip, then try the formats
`"%d.%m.%y %H:%M"` and `"%d.%m.%Y %H:%M"` in that order; `none` when both
fail.  (Day, month, hour and minute are two-digit here, the shape in which
this program's timestamp regex delivers its matches.) -/
def parseTimestampChars (s : List Char) : Option PyDateTime :=
  match stripChars s with
  | d1 :: d2 :: '.' :: m1 :: m2 :: '.' :: rest =>
      if d1.isDigit ∧ d2.isDigit ∧ m1.isDigit ∧ m2.isDigit then
        let dd := 10 * digitVal d1 + digitVal d2
        let mm := 10 * digitVal m1 + digitVal m2
        match rest with
        | y1 :: y2 :: rest2 =>
            if y1.isDigit ∧ y2.isDigit then
              match parseTimeTail (centuryOf (10 * digitVal y1 + digitVal y2)) mm dd rest2 with
              | some t => some t
              | none =>
                  match rest2 with
                  | y3 :: y4 :: rest3 =>
                      if y3.isDigit ∧ y4.isDigit then
                        parseTimeTail
                          (1000 * digitVal y1 + 100 * digitVal y2 +
                            10 * digitVal y3 + digitVal y4) mm dd rest3
                      else none
                  | _ => none
            else none
        | _ => none
      else none
  | _ => none

/-- Take exactly `k` leading decimal digits, or fail. -/
def takeDigits : ℕ → List Char → Option (List Char × List Char)
  | 0, cs => some ([], cs)
  | k + 1, c :: cs =>
      if c.isDigit then (takeDigits k cs).map (fun p => (c :: p.1, p.2)) else none
  | _ + 1, [] => none

/-- Attempt the timestamp regex `\d{2}\.\d{2}\.\d{2,4}\s*\d{2}:\d{2}` at the
start of `cs` with a `k`-digit year; returns the matched text and the rest. -/
def tryTimestampYear (k : ℕ) (pre : List Char) (cs : List Char) :
    Option (List Char × List Char) :=
  match takeDigits k cs with
  | none => none
  | some (ys, rest) =>
      let ws := rest.takeWhile Char.isWhitespace
      match takeDigits 2 (rest.drop ws.length) with
      | none => none
      | some (hs, rest2) =>
          match rest2 with
          | ':' :: rest3 =>
              match takeDigits 2 rest3 with
              | none => none
              | some (ms, rest4) =>
                  some (pre ++ ys ++ ws ++ hs ++ ':' :: ms, rest4)
          | _ => none

/-- Attempt the timestamp regex at the start of `cs`; the `{2,4}` year is
greedy, so year lengths 4, 3, 2 are tried in that order. -/
def tryTimestampAt (cs : List Char) : Option (List Char × List Char) :=
  match cs with
  | d1 :: d2 :: '.' :: m1 :: m2 :: '.' :: rest =>
      if d1.isDigit ∧ d2.isDigit ∧ m1.isDigit ∧ m2.isDigit then
        let pre := [d1, d2, '.', m1, m2, '.']
        match tryTimestampYear 4 pre rest with
        | some r => some r
        | none =>
            match tryTimestampYear 3 pre rest with
            | some r => some r
            | none => tryTimestampYear 2 pre rest
      else none
  | _ => none

/-- `re.findall` for the timestamp regex: scan left to right, emit each
leftmost non-overlapping match, continue after its end (fuel-bounded by the
text length). -/
def tsFindAllAux : ℕ → List Char → List (List Char)
  | 0, _ => []
  | _, [] => []
  | fuel + 1, c :: rest =>
      match tryTimestampAt (c :: rest) with
      | some (m, after) => m :: tsFindAllAux fuel after
      | none => tsFindAllAux fuel rest

/-- See `tsFindAllAux`. -/
def tsFindAll (cs : List Char) : List (List Char) := tsFindAllAux cs.length cs

/-- `_extract_from_cell(cell, timestamp_regex, self._parse_timestamp)`:
find all regex matches and keep the ones that parse. -/
def extractTimestamps (cell : List Char) : List PyDateTime :=
  (tsFindAll cell).filterMap parseTimestampChars

/-- Attempt the rate regex `\d+(?:[.,]\d+)?` at the start of `cs`: a maximal
digit run, optionally followed by `.` or `,` and a further maximal digit
run; returns the matched text and the rest. -/
def tryNumberAt (cs : List Char) : Option (List Char × List Char) :=
  match cs with
  | c :: _ =>
      if c.isDigit then
        let ip := cs.takeWhile Char.isDigit
        let rest := cs.drop ip.length
        match rest with
        | p :: d :: _ =>
            if (p = '.' ∨ p = ',') ∧ d.isDigit then
              let fp := (rest.drop 1).takeWhile Char.isDigit
              some (ip ++ p :: fp, (rest.drop 1).drop fp.length)
            else some (ip, rest)
        | _ => some (ip, rest)
      else none
  | [] => none

/-- `re.findall` for the rate regex (fuel-bounded scan, as for timestamps). -/
def numFindAllAux : ℕ → List Char → List (List Char)
  | 0, _ => []
  | _, [] => []
  | fuel + 1, c :: rest =>
      match tryNumberAt (c :: rest) with
      | some (m, after) => m :: numFindAllAux fuel after
      | none => numFindAllAux fuel rest

/-- See `numFindAllAux`. -/
def numFindAll (cs : List Char) : List (List Char) := numFindAllAux cs.length cs

/-- The rate converter `lambda x: float(x.replace(",", "."))`. -/
def parseRateChars (cs : List Char) : Option ℚ :=
  parseFloatChars (cs.map (fun c => if c = ',' then '.' else c))

/-- `_extract_from_cell(cell, rate_regex, converter)`. -/
def extractRates (cell : List Char) : List ℚ :=
  (numFindAll cell).filterMap parseRateChars

/-! ## `MedicationParserMixin._process_medication_block`
(src/mlife_core/services/parsers/medication.py 78-121) -/

/-- The resolved column indices of `_get_medication_columns`. -/
structure MedCols where
  medication : ℕ
  concentration : ℕ
  application : ℕ
  start : ℕ
  stop : ℕ
  rate : ℕ
deriving DecidableEq

/-- `max(cols.values())`. -/
def maxColIdx (c : MedCols) : ℕ :=
  max c.medication (max c.concentration (max c.application (max c.start (max c.stop c.rate))))

/-- One emitted `MedicationModel` row (the fields set by
`_process_medication_block`). -/
structure MedEvent where
  parameter : List Char
  category : List Char
  concentration : List Char
  application : List Char
  timestamp : PyDateTime
  stop : Option PyDateTime
  rate : Option ℚ
  value : PyVal
deriving DecidableEq

/-- `next((entry for entry in header if entry.strip()), "")`: the first cell
of the header row with non-blank content, unstripped. -/
def firstNonBlank (cells : List (List Char)) : List Char :=
  ((cells.find? (fun e => ¬(stripChars e).isEmpty)).getD [])

/-- Body of `_process_medication_block` for a single value row: skip the row
when it is shorter than the largest column index; otherwise extract all
start timestamps, stop timestamps and rates from their cells and emit one
event per extracted start, pairing the i-th start with the i-th stop and the
i-th rate (absent when the lists are shorter) and falling back from a
missing rate to the raw concentration cell for `value`. -/
def processMedLine (cols : MedCols) (category : List Char) (line : List (List Char)) :
    List MedEvent :=
  if line.length ≤ maxColIdx cols then []
  else
    let starts := extractTimestamps (line.getD cols.start [])
    let stops := extractTimestamps (line.getD cols.stop [])
    let rates := extractRates (line.getD cols.rate [])
    starts.enum.map (fun p =>
      { parameter := line.getD cols.medication []
        category := category
        concentration := line.getD cols.concentration []
        application := line.getD cols.application []
        timestamp := p.2
        stop := stops[p.1]?
        rate := rates[p.1]?
        value := match rates[p.1]? with
          | some r => PyVal.num r
          | none => PyVal.text (line.getD cols.concentration []) })

/-- `_process_medication_block` over the buffered rows of one block. -/
def processMedicationBlock (cols : MedCols) (header : List (List Char))
    (lines : List (List (List Char))) : List MedEvent :=
  (lines.map (processMedLine cols (firstNonBlank header))).flatten

/-! ## `BaseAggregator.aggregate_value` (src/services/aggregators/base.py
108-196).  Regex containment tests on the data-driven field-mapping patterns
are taken as a parameter `pm` (the `str.contains(pattern, case=False,
regex=True)` oracle); everything else is embedded directly. -/

/-- One row of the day-filtered event table as `aggregate_value` sees it:
`parameter`, `category`, `value`, and the timestamp reduced to its
seconds-of-day (`none` models `NaT`). -/
structure ARow where
  parameter : List Char
  category : List Char
  value : PyVal
  tsec : Option ℕ
deriving DecidableEq

/-- `pd.to_numeric(value, errors="coerce")` on one cell: numbers pass
through, text is parsed as a decimal numeral, anything else is dropped. -/
def toNumeric (v : PyVal) : Option ℚ :=
  match v with
  | PyVal.num q => some q
  | PyVal.text s => parseFloatChars s

/-- The row mask of `aggregate_value`: the parameter pattern always applies;
the category pattern applies only when it is not `".*"`. -/
def rowMask (catPat paramPat : List Char) (pm : List Char → List Char → Bool)
    (r : ARow) : Bool :=
  pm paramPat r.parameter && (if catPat = ".*".data then true else pm catPat r.category)

/-- Comparison on `Option ℕ` with `none` as `float("inf")`, as used for the
`_time_diff` column. -/
def ltInf : Option ℕ → Option ℕ → Bool
  | some a, some b => a < b
  | some _, none => true
  | none, _ => false

/-- Absolute seconds-of-day distance to the reference time (`inf` for
`NaT`). -/
def timeDiff (target : ℕ) (t : Option ℕ) : Option ℕ :=
  t.map (fun s => max s target - min s target)

/-- `BaseAggregator._get_nearest_value` (base.py 163-196): among the masked
rows with a numeric value, pick the value whose timestamp is closest to the
reference time of day; `idxmin` resolves ties to the earliest row. -/
def nearestValue (target : ℕ) (filtered : List ARow) : Option ℚ :=
  let valid := filtered.filterMap (fun r => (toNumeric r.value).map (fun q => (r.tsec, q)))
  match valid with
  | [] => none
  | v :: vs =>
      some ((vs.foldl (fun best x =>
        if ltInf (timeDiff target x.1) (timeDiff target best.1) then x else best) v).2)

/-- The strategy-dispatch `if`/`elif` chain of `aggregate_value`
(base.py 148-161); the final `return float(values.median())` is the
fall-through default reached by every unknown strategy and by `nearest`
without a reference time. -/
def applyStrategy (strategy : List Char) (nearestTime : Option ℕ)
    (filtered : List ARow) (values : List ℚ) : Option ℚ :=
  if strategy = "nearest".data ∧ nearestTime.isSome then
    nearestValue (nearestTime.getD 0) filtered
  else if strategy = "median".data then some (pandasMedian values)
  else if strategy = "mean".data then some (values.sum / values.length)
  else if strategy = "first".data then values.head?
  else if strategy = "last".data then values.getLast?
  else some (pandasMedian values)

/-- `BaseAggregator.aggregate_value` (base.py 108-161): filter by the
pattern masks, coerce to numbers, then dispatch on the strategy. -/
def aggregateValue (strategy : List Char) (nearestTime : Option ℕ)
    (catPat paramPat : List Char) (pm : List Char → List Char → Bool)
    (rows : List ARow) : Option ℚ :=
  if rows.isEmpty then none
  else
    let filtered := rows.filter (rowMask catPat paramPat pm)
    if filtered.isEmpty then none
    else
      let values := filtered.filterMap (fun r => toNumeric r.value)
      if values.isEmpty then none
      else applyStrategy strategy nearestTime filtered values

/-! ## `HemodynamicsAggregator` dose pipeline
(src/services/aggregators/hemodynamics_aggregator.py 249-415) -/

/-- One row of the medication frame as `_get_medication_rate` uses it:
the `parameter` text and the `rate` column (already numeric or `None`). -/
structure MedRow where
  parameter : List Char
  rate : Option ℚ
deriving DecidableEq

/-- The bolus marker test `str.contains(r"\(FER\)|Fertigspritze",
case=False, regex=True)`: the parameter contains `"(FER)"` or
`"Fertigspritze"` case-insensitively. -/
def isFER (p : List Char) : Bool :=
  containsCI p "(FER)".data || containsCI p "Fertigspritze".data

/-- The skip test inside `_extract_concentration`:
`"(FER)" in param or "Fertigspritze" in param.lower()` (note: the first test
is case-sensitive and the second compares a capitalised literal against a
lower-cased string, faithfully embedded). -/
def concSkipFER (p : List Char) : Bool :=
  charsInfix "(FER)".data p || charsInfix "Fertigspritze".data (lowerChars p)

/-- Match attempt for concentration pattern 1,
`(\d+(?:[,\.]\d+)?)\s*mg\s*/\s*(\d+)\s*ml` (IGNORECASE), at the start of
`cs`; returns `(mg, ml)`. -/
def tryConcPattern1At (cs : List Char) : Option (ℚ × ℚ) :=
  match cs with
  | c :: _ =>
      if c.isDigit then
        let ip := cs.takeWhile Char.isDigit
        let rest := cs.drop ip.length
        let contAt : List Char → ℚ → Option (ℚ × ℚ) := fun r mg =>
          let r1 := r.dropWhile Char.isWhitespace
          if "mg".data.isPrefixOf (lowerChars r1) then
            let r2 := (r1.drop 2).dropWhile Char.isWhitespace
            match r2 with
            | '/' :: r3 =>
                let r4 := r3.dropWhile Char.isWhitespace
                let ml := r4.takeWhile Char.isDigit
                if ml.isEmpty then none
                else
                  let r5 := (r4.drop ml.length).dropWhile Char.isWhitespace
                  if "ml".data.isPrefixOf (lowerChars r5) then
                    some (mg, (digitsToNat ml : ℚ))
                  else none
            | _ => none
          else none
        let fracTry : Option (ℚ × ℚ) :=
          match rest with
          | p :: d :: _ =>
              if (p = ',' ∨ p = '.') ∧ d.isDigit then
                let fp := (rest.drop 1).takeWhile Char.isDigit
                contAt ((rest.drop 1).drop fp.length)
                  (mkRat (digitsToNat ip * 10 ^ fp.length + digitsToNat fp) (10 ^ fp.length))
              else none
          | _ => none
        match fracTry with
        | some r => some r
        | none => contAt rest (digitsToNat ip : ℚ)
      else none
  | [] => none

/-- Leftmost search for concentration pattern 1, modelling `re.search`. -/
def searchConcPattern1 : List Char → Option (ℚ × ℚ)
  | [] => none
  | c :: rest =>
      match tryConcPattern1At (c :: rest) with
      | some r => some r
      | none => searchConcPattern1 rest

/-- Match attempt for concentration pattern 2,
`(\d+(?:[,\.]\d+)?)\s*mg/ml` (IGNORECASE), at the start of `cs`;
returns the mg-per-ml value. -/
def tryConcPattern2At (cs : List Char) : Option ℚ :=
  match cs with
  | c :: _ =>
      if c.isDigit then
        let ip := cs.takeWhile Char.isDigit
        let rest := cs.drop ip.length
        let contAt : List Char → ℚ → Option ℚ := fun r v =>
          if "mg/ml".data.isPrefixOf (lowerChars (r.dropWhile Char.isWhitespace)) then some v
          else none
        let fracTry : Option ℚ :=
          match rest with
          | p :: d :: _ =>
              if (p = ',' ∨ p = '.') ∧ d.isDigit then
                let fp := (rest.drop 1).takeWhile Char.isDigit
                contAt ((rest.drop 1).drop fp.length)
                  (mkRat (digitsToNat ip * 10 ^ fp.length + digitsToNat fp) (10 ^ fp.length))
              else none
          | _ => none
        match fracTry with
        | some r => some r
        | none => contAt rest (digitsToNat ip : ℚ)
      else none
  | [] => none

/-- Leftmost search for concentration pattern 2. -/
def searchConcPattern2 : List Char → Option ℚ
  | [] => none
  | c :: rest =>
      match tryConcPattern2At (c :: rest) with
      | some r => some r
      | none => searchConcPattern2 rest

/-- The static fallback table `default_concentrations` of
`_extract_concentration` (µg/ml). -/
def defaultConcentrations : List (List Char × ℚ) :=
  [ ("norepinephrine".data, 100),
    ("epinephrine".data, 200),
    ("dobutamine".data, 5000),
    ("milrinone".data, 200) ]

/-- `HemodynamicsAggregator._extract_concentration`
(hemodynamics_aggregator.py 326-368): walk the parameter texts; skip
pre-filled-syringe entries; on pattern 1 return `mg * 1000 / ml`; on
pattern 2 return `5000` for dobutamine (fixed standard dilution) and
`mg_per_ml * 1000` otherwise; finally fall back to the static table. -/
def extractConcentration (params : List (List Char)) (field : List Char) : Option ℚ :=
  match params with
  | [] => assocGet defaultConcentrations field
  | p :: rest =>
      if concSkipFER p then extractConcentration rest field
      else
        match searchConcPattern1 p with
        | some (mg, ml) => some (mg * 1000 / ml)
        | none =>
            match searchConcPattern2 p with
            | some mgPerMl =>
                if field = "dobutamine".data then some 5000 else some (mgPerMl * 1000)
            | none => extractConcentration rest field

/-- One row of the full event table as `_get_patient_weight` scans it. -/
structure WRow where
  sourceType : List Char
  parameter : List Char
  value : PyVal
deriving DecidableEq

/-- The `source_type` half of the weight mask:
`str.contains("PatientInfo|Grösse/Gewicht", case=False)` — containment of
either literal alternative, case-insensitively. -/
def weightSourceMask (s : List Char) : Bool :=
  containsCI s "PatientInfo".data || containsCI s "Grösse/Gewicht".data

/-- The `parameter` half of the weight mask: the anchored regex
`^Gewicht(?:\s*/\s*kg)?$` (case-insensitive) — the whole cell is `Gewicht`,
optionally followed by `/` `kg` with flexible spacing. -/
def weightParamMask (s : List Char) : Bool :=
  let l := lowerChars s
  "gewicht".data.isPrefixOf l &&
    (let rest := l.drop 7
     rest.isEmpty ||
       (match rest.dropWhile Char.isWhitespace with
        | '/' :: r => (r.dropWhile Char.isWhitespace) = "kg".data
        | _ => false))

/-- `float(str(val).replace(",", "."))` on one cell: a numeric cell
round-trips unchanged; a text cell has commas replaced and is parsed. -/
def toWeightNum (v : PyVal) : Option ℚ :=
  match v with
  | PyVal.num q => some q
  | PyVal.text s => parseFloatChars (s.map (fun c => if c = ',' then '.' else c))

/-- The per-row value loop of `_get_patient_weight`: the first cell that
parses to a number strictly between 20 and 300 wins; parse failures and
out-of-range values are skipped. -/
def weightLoop : List WRow → Option ℚ
  | [] => none
  | r :: rest =>
      match toWeightNum r.value with
      | some w => if 20 < w ∧ w < 300 then some w else weightLoop rest
      | none => weightLoop rest

/-- The conjunction of the two weight-mask halves (`weight_mask`). -/
def weightRowMaskB (r : WRow) : Bool :=
  weightSourceMask r.sourceType && weightParamMask r.parameter

/-- A row that the weight search accepts outright: it passes both mask
halves and its value parses to a number strictly between 20 and 300. -/
def weightQualifies (r : WRow) : Bool :=
  weightRowMaskB r &&
    (match toWeightNum r.value with
     | some w => decide (20 < w ∧ w < 300)
     | none => false)

/-- `HemodynamicsAggregator._get_patient_weight` (hemodynamics_aggregator.py
370-415): a manually entered state weight wins outright; otherwise filter
the full event table by the two masks and scan for the first plausible
value. -/
def getPatientWeight (stateWeight : Option ℚ) (allRows : List WRow) : Option ℚ :=
  match stateWeight with
  | some w => some w
  | none => weightLoop (allRows.filter weightRowMaskB)

/-- Modelled from the claim's words (for comparison only): a candidate row
for the weight search has a `source_type` containing `PatientInfo` or
`Grösse/Gewicht`, a `parameter` matching the regex `^Gewicht` (an unanchored
search, i.e. a case-insensitive prefix test), and a value parsing strictly
between 20 and 300. -/
def specWeightCandidate (r : WRow) : Bool :=
  weightSourceMask r.sourceType &&
  "gewicht".data.isPrefixOf (lowerChars r.parameter) &&
  (match toWeightNum r.value with
   | some w => decide (20 < w ∧ w < 300)
   | none => false)

/-- `HemodynamicsAggregator._get_medication_rate` (hemodynamics_aggregator.py
249-324) with the drug-name pattern test supplied as the oracle `pmatch`:
filter by drug name, exclude pre-filled syringes, take the median rate,
special-case vasopressin to a rounded pass-through, otherwise convert with
the extracted concentration and the patient weight as
`round((rate * conc) / (60 * weight), 4)`.  The three filtering stages are
named so the theorems below can refer to them:
`medFiltered` is the drug-name match, `medKept` additionally excludes
pre-filled syringes, `medRates` is the numeric rate column. -/
def medFiltered (pmatch : List Char → Bool) (rows : List MedRow) : List MedRow :=
  rows.filter (fun r => pmatch r.parameter)

/-- The rows surviving the bolus exclusion (`~fer_mask`). -/
def medKept (pmatch : List Char → Bool) (rows : List MedRow) : List MedRow :=
  (medFiltered pmatch rows).filter (fun r => ¬isFER r.parameter)

/-- `pd.to_numeric(filtered["rate"], errors="coerce").dropna()`. -/
def medRates (pmatch : List Char → Bool) (rows : List MedRow) : List ℚ :=
  (medKept pmatch rows).filterMap (fun r => r.rate)

/-- See the section comment: the main body of `_get_medication_rate`. -/
def getMedicationRate (pmatch : List Char → Bool) (field : List Char)
    (stateWeight : Option ℚ) (allRows : List WRow) (rows : List MedRow) : Option ℚ :=
  if rows.isEmpty then none
  else if (medFiltered pmatch rows).isEmpty then none
  else if (medKept pmatch rows).isEmpty then none
  else if (medRates pmatch rows).isEmpty then none
  else
    let rateMlH := pandasMedian (medRates pmatch rows)
    if field = "vasopressin".data then some (roundTo 2 rateMlH)
    else
      match extractConcentration ((medKept pmatch rows).map (fun r => r.parameter)) field with
      | none => none
      | some conc =>
          match getPatientWeight stateWeight allRows with
          | none => none
          | some weight => some (roundTo 4 (rateMlH * conc / (60 * weight)))

/-! ## `AllPatientDataMixin._get_from_all_patient_data_by_string`
(src/mlife_core/services/parsers/all_patient_data.py 27-84) -/

/-- Decimal digits of a natural number (own implementation so that the
kernel can evaluate it). -/
def natToCharsAux : ℕ → ℕ → List Char
  | 0, _ => []
  | fuel + 1, n =>
      if n < 10 then [Char.ofNat ('0'.toNat + n)]
      else natToCharsAux fuel (n / 10) ++ [Char.ofNat ('0'.toNat + n % 10)]

/-- `str(n)` for a natural number. -/
def natToChars (n : ℕ) : List Char :=
  if n = 0 then ['0'] else natToCharsAux n n

/-- Whether `key` is an all-patient-data sub-header of the block: some line
splits into more than two fields with the first two empty and the third
equal to `key`, non-empty and different from `"Datum"`
(`_extract_all_patient_data_headers`). -/
def apIsHeader (d : Char) (lines : List (List Char)) (key : List Char) : Bool :=
  lines.any (fun l =>
    let ps := splitOnChar d l
    decide (2 < ps.length) && (ps.getD 0 []).isEmpty && (ps.getD 1 []).isEmpty &&
      ¬(ps.getD 2 []).isEmpty && ps.getD 2 [] ≠ "Datum".data && ps.getD 2 [] = key)

/-- Whether `key` is one of the sub-headers selected by the query:
`query.lower() in header.lower()`. -/
def apIsMatching (d : Char) (lines : List (List Char)) (query key : List Char) : Bool :=
  apIsHeader d lines key && charsInfix (lowerChars query) (lowerChars key)

/-- Append `xs` to the bucket of the (unique) key `k`, creating the bucket if
absent (`setdefault(k, []).extend(xs)` / `.append`). -/
def apAppendEntry : List ((List Char × List Char) × List (List Char)) →
    (List Char × List Char) → List (List Char) →
    List ((List Char × List Char) × List (List Char))
  | [], k, xs => [(k, xs)]
  | e :: rest, k, xs =>
      if e.1 = k then (k, e.2 ++ xs) :: rest else e :: apAppendEntry rest k xs

/-- Walker state of `_get_from_all_patient_data_by_string`. -/
structure APState where
  currentHeader : Option (List Char)
  counter : ℕ
  currentSub : Option (List Char)
  buffer : List (List Char)
  result : List ((List Char × List Char) × List (List Char))
deriving DecidableEq

/-- The buffer flush to the previous numbered instance, guarded by
`current_header is not None and current_sub_header is not None and buffer`. -/
def apFlush (st : APState) : APState :=
  match st.currentHeader, st.currentSub with
  | some h, some sub =>
      if st.buffer.isEmpty then st
      else { st with result := apAppendEntry st.result (h, sub) st.buffer, buffer := [] }
  | _, _ => st

/-- One line of the `_get_from_all_patient_data_by_string` walk: short lines
are buffered under the current instance; a selected sub-header line flushes,
increments the instance counter when the header equals the current one and
resets it to 1 otherwise, and opens (or re-opens) the numbered instance; a
non-selected sub-header closes the current instance; other lines are
buffered. -/
def apStep (d : Char) (lines : List (List Char)) (query : List Char)
    (st : APState) (line : List Char) : APState :=
  let ps := splitOnChar d line
  if ps.length < 3 then
    if st.currentHeader.isSome then { st with buffer := st.buffer ++ [line] } else st
  else
    let key := ps.getD 2 []
    if apIsHeader d lines key then
      let st1 := apFlush st
      if apIsMatching d lines query key then
        let cnt := if st1.currentHeader = some key then st1.counter + 1 else 1
        let sub := key ++ ' ' :: natToChars cnt
        { currentHeader := some key, counter := cnt, currentSub := some sub,
          buffer := st1.buffer,
          result := apAppendEntry st1.result (key, sub) [line] }
      else
        { st1 with currentHeader := none, currentSub := none }
    else
      if st.currentHeader.isSome then { st with buffer := st.buffer ++ [line] } else st

/-- `_get_from_all_patient_data_by_string` on the lines of the
`"ALLE Patientendaten"` block: fold the walker and flush the final buffer.
The result maps `(sub_header, numbered_instance)` to the collected lines. -/
def getFromAllPatientData (d : Char) (query : List Char) (lines : List (List Char)) :
    List ((List Char × List Char) × List (List Char)) :=
  (apFlush (lines.foldl (apStep d lines query) ⟨none, 0, none, [], []⟩)).result

/-! ## Concrete example data used by the theorems -/

/-- Cleaned export fragment in which the header token `Bilanz` opens two
blocks with different content. -/
def repeatedHeaderLines : List (List Char) :=
  ["Bilanz;x".data, "c1;1".data, "Bilanz;y".data, "c2;2".data]

/-- Day-filtered events with the numeric values `1, 2, 3, 100` (the
spec's median example). -/
def aggExampleRows : List ARow :=
  [⟨"p".data, "c".data, PyVal.num 1, some 0⟩,
   ⟨"p".data, "c".data, PyVal.num 2, some 0⟩,
   ⟨"p".data, "c".data, PyVal.num 3, some 0⟩,
   ⟨"p".data, "c".data, PyVal.num 100, some 0⟩]

/-- An `"ALLE Patientendaten"` section with two non-adjacent occurrences of
the sub-header `ECMO`, separated by an `Impella` sub-header. -/
def apExampleLines : List (List Char) :=
  [";;ECMO".data, ";;;data1".data, ";;Impella".data, ";;;data2".data,
   ";;ECMO".data, ";;;data3".data]

/-- An event row whose parameter starts with `Gewicht` without being the
weight field: matched by the regex `^Gewicht` of the claim, rejected by the
anchored regex `^Gewicht(?:\s*/\s*kg)?$` of the code. -/
def weightCexRow : WRow :=
  ⟨"PatientInfo".data, "Gewichtszunahme".data, PyVal.text "50".data⟩

/-- A medication value row (cells in column order: drug name, concentration,
application, start cell with two timestamps, empty stop cell, rate cell with
two numbers). -/
def medExampleLine : List (List Char) :=
  ["Norepinephrin".data, "5 mg / 50 ml".data, "i.v.".data,
   "01.01.24 10:00 01.01.24 12:00".data, "".data, "5 10".data]

/-- Column indices matching `medExampleLine`. -/
def medExampleCols : MedCols := ⟨0, 1, 2, 3, 4, 5⟩

/-- The dose-normalizer example of the spec: one matched row named
`"Norepinephrin Perfusor 5 mg / 50 ml"` running at `10 ml/h`. -/
def doseExampleRows : List MedRow :=
  [⟨"Norepinephrin Perfusor 5 mg / 50 ml".data, some 10⟩]

/-- An event table holding the patient weight `80` kg. -/
def weight80Rows : List WRow :=
  [⟨"PatientInfo".data, "Gewicht".data, PyVal.num 80⟩]

/-! ## Helper lemmas -/

/-- A non-nil list is not `isEmpty`. -/
lemma isEmpty_false_of_ne_nil {α : Type} {l : List α} (h : l ≠ []) :
    l.isEmpty = false := by
  cases l with
  | nil => exact absurd rfl h
  | cons a t => rfl

/-- `truthyOpt` is true exactly on present non-zero values. -/
lemma truthyOpt_eq_true_iff (o : Option ℚ) :
    truthyOpt o = true ↔ ∃ v, o = some v ∧ v ≠ 0 := by
  cases o with
  | none => simp [truthyOpt]
  | some v => simp [truthyOpt]

/-! ## Theorems for the claims -/

/-- C1: the claim states that invoking the derived-field pass twice with
unchanged primary fields yields bitwise-identical output for every
`LabModel` and `HemodynamicsModel`.  On `LabModel` this fails: the pass
rescales `albumin` (and `crp`) in place by `round(x / 10, 1)` on every
invocation, so a record with `albumin = 40.0` holds `4.0` after one pass and
`0.4` after two. -/
theorem lab_derived_pass_not_idempotent :
    (labSetDerivedFields labAlbuminExample).albumin = some 4 ∧
    (labSetDerivedFields (labSetDerivedFields labAlbuminExample)).albumin = some (2 / 5) ∧
    labSetDerivedFields (labSetDerivedFields labAlbuminExample) ≠
      labSetDerivedFields labAlbuminExample := by
  have e1 : (labSetDerivedFields labAlbuminExample).albumin = some 4 := by
    have h1 : (labSetDerivedFields labAlbuminExample).albumin =
        some (roundTo 1 ((40 : ℚ) / 10)) := rfl
    rw [h1]
    norm_num [roundTo, roundHalfEven]
  have e2 : (labSetDerivedFields (labSetDerivedFields labAlbuminExample)).albumin =
      some (2 / 5) := by
    have h1 : (labSetDerivedFields (labSetDerivedFields labAlbuminExample)).albumin =
        some (roundTo 1 (roundTo 1 ((40 : ℚ) / 10) / 10)) := rfl
    rw [h1]
    norm_num [roundTo, roundHalfEven]
  refine ⟨e1, e2, fun h => ?_⟩
  rw [h, e1] at e2
  rw [Option.some_inj] at e2
  norm_num at e2

/-- C10: the derived hemolysis flag of `LabModel` is computed by Python
truthiness of `fhb`, `hapto` and `bili`: it is `1` exactly when at least one
of them is a present non-zero value, always `0` or `1`, and a value of
exactly `0.0` in any of the three fields yields the same flag as a missing
value. -/
theorem lab_hemolysis_truthiness (r : LabRecord) :
    ((labSetDerivedFields r).hemolysis = some 1 ↔
      ((∃ v, r.fhb = some v ∧ v ≠ 0) ∨ (∃ v, r.hapto = some v ∧ v ≠ 0) ∨
        (∃ v, r.bili = some v ∧ v ≠ 0))) ∧
    ((labSetDerivedFields r).hemolysis = some 0 ∨
      (labSetDerivedFields r).hemolysis = some 1) ∧
    (labSetDerivedFields { r with fhb := some 0 }).hemolysis =
      (labSetDerivedFields { r with fhb := none }).hemolysis ∧
    (labSetDerivedFields { r with hapto := some 0 }).hemolysis =
      (labSetDerivedFields { r with hapto := none }).hemolysis ∧
    (labSetDerivedFields { r with bili := some 0 }).hemolysis =
      (labSetDerivedFields { r with bili := none }).hemolysis := by
  have hiff : (labSetDerivedFields r).hemolysis = some 1 ↔
      (truthyOpt r.fhb || truthyOpt r.hapto || truthyOpt r.bili) = true := by
    by_cases hb : (truthyOpt r.fhb || truthyOpt r.hapto || truthyOpt r.bili) = true
    · simp [labSetDerivedFields, hb]
    · rw [Bool.not_eq_true] at hb
      simp [labSetDerivedFields, hb]
  refine ⟨?_, ?_, ?_, ?_, ?_⟩
  · rw [hiff]
    simp only [Bool.or_eq_true, truthyOpt_eq_true_iff]
    exact or_assoc
  · by_cases hb : (truthyOpt r.fhb || truthyOpt r.hapto || truthyOpt r.bili) = true
    · exact Or.inr (by simp [labSetDerivedFields, hb])
    · rw [Bool.not_eq_true] at hb
      exact Or.inl (by simp [labSetDerivedFields, hb])
  · simp [labSetDerivedFields, truthyOpt]
  · simp [labSetDerivedFields, truthyOpt]
  · simp [labSetDerivedFields, truthyOpt]

/-- C2 counterexample: with the header token `Bilanz` occurring twice, the
Block Segmenter maps the key to the buffered lines of the *second*
occurrence alone — the first occurrence's content `c1;1` is overwritten, not
concatenated. -/
theorem splitBlocks_repeat_overwrites_cex :
    assocGet (splitBlocksLines ';' repeatedHeaderLines) ("Bilanz".data, "Bilanz".data) =
      some "c2;2".data ∧
    (some "c2;2".data : Option (List Char)) ≠ some "c1;1\nc2;2".data := by
  decide

/-- C3 counterexample: the Report Cleaner always removes the final line of
its input, so it is not idempotent: `clean("a\nb") = "a"` but
`clean(clean("a\nb")) = ""`. -/
theorem cleanCsv_not_idempotent_cex :
    cleanCsv "a\nb".data = "a".data ∧
    cleanCsv (cleanCsv "a\nb".data) ≠ cleanCsv "a\nb".data := by
  decide

/-- C4 counterexample: with the unknown strategy `"bogus"` — and likewise
with `"nearest"` but no reference time — `aggregate_value` silently returns
the median (`2.5` for values `1, 2, 3, 100`) instead of "no value". -/
theorem aggregateValue_unknown_strategy_cex :
    aggregateValue "bogus".data none ".*".data "x".data (fun _ _ => true) aggExampleRows =
      some (5 / 2) ∧
    aggregateValue "nearest".data none ".*".data "x".data (fun _ _ => true) aggExampleRows =
      some (5 / 2) := by
  have hmed : pandasMedian [1, 2, 3, 100] = 5 / 2 := by
    norm_num [pandasMedian, sortRat, insertSorted]
  constructor
  · have h1 : aggregateValue "bogus".data none ".*".data "x".data (fun _ _ => true)
        aggExampleRows = some (pandasMedian [1, 2, 3, 100]) := rfl
    rw [h1, hmed]
  · have h1 : aggregateValue "nearest".data none ".*".data "x".data (fun _ _ => true)
        aggExampleRows = some (pandasMedian [1, 2, 3, 100]) := rfl
    rw [h1, hmed]

/-- C7: the claim states that every new occurrence of a selected sub-header
opens a new numbered instance.  In the code, an intervening different
sub-header resets the instance counter to 1, so the second `ECMO` occurrence
of the example section is merged into the existing instance `"ECMO 1"` and
no `"ECMO 2"` is created. -/
theorem nested_parser_merges_interleaved_instances :
    assocGet (getFromAllPatientData ';' "ECMO".data apExampleLines)
      ("ECMO".data, "ECMO 1".data) =
      some [";;ECMO".data, ";;;data1".data, ";;ECMO".data, ";;;data3".data] ∧
    assocGet (getFromAllPatientData ';' "ECMO".data apExampleLines)
      ("ECMO".data, "ECMO 2".data) = none := by
  decide

/-- C8 counterexample: at a winning count of exactly 20 (not *below* the
threshold of 20, as the claim puts it) the detector still reports
undetermined: 20 semicolons against 0 pipes yield `none`, where the claim's
reading would yield `";"`. -/
theorem detectDelimiter_boundary_cex :
    countChar ';' (List.replicate 20 ';') = 20 ∧
    countChar '|' (List.replicate 20 ';') = 0 ∧
    specDetectDelimiter (List.replicate 20 ';') = some [';'] ∧
    detect_delimiter (List.replicate 20 ';') = none := by
  decide

/-- C8 (amended): the detector returns the strictly more frequent delimiter
exactly when its count strictly exceeds 20, and reports undetermined when
the counts are equal or the winning count is at most 20; in particular 25
`;` against 10 `|` yields `;` and 10 against 10 yields undetermined. -/
theorem detectDelimiter_characterization (text : List Char) :
    detect_delimiter text =
      (if countChar ';' text > countChar '|' text ∧ 20 < countChar ';' text then some [';']
       else if countChar '|' text > countChar ';' text ∧ 20 < countChar '|' text then
         some ['|']
       else none) ∧
    detect_delimiter (List.replicate 25 ';' ++ List.replicate 10 '|') = some [';'] ∧
    detect_delimiter (List.replicate 10 ';' ++ List.replicate 10 '|') = none := by
  refine ⟨?_, by decide, by decide⟩
  by_cases h1 : countChar ';' text > countChar '|' text
  · by_cases h2 : 20 < countChar ';' text
    · simp [detect_delimiter, h1, h2]
    · simp [detect_delimiter, h1, h2, Nat.lt_asymm h1]
  · by_cases h3 : countChar '|' text > countChar ';' text
    · by_cases h4 : 20 < countChar '|' text
      · simp [detect_delimiter, h1, h3, h4]
      · simp [detect_delimiter, h1, h3, h4]
    · simp [detect_delimiter, h1, h3]

/-- C9 counterexample: a row with parameter `"Gewichtszunahme"` and value 50
satisfies the claim's candidate condition (source type contains
`PatientInfo`, parameter matches the search regex `^Gewicht`, value in
range), yet the code returns no weight: its regex is anchored,
`^Gewicht(?:\s*/\s*kg)?$`, and rejects the parameter. -/
theorem patientWeight_prefix_pattern_cex :
    specWeightCandidate weightCexRow = true ∧
    getPatientWeight none [weightCexRow] = none := by
  decide

/-- Looking up the key just set returns the new value. -/
lemma assocGet_assocSet {K V : Type} [DecidableEq K] (m : List (K × V)) (k : K) (v : V) :
    assocGet (assocSet m k v) k = some v := by
  induction m with
  | nil => simp [assocSet, assocGet]
  | cons e rest ih =>
      by_cases he : e.1 = k
      · simp [assocSet, assocGet, he]
      · simp only [assocSet, he, if_false]
        simpa [assocGet, List.find?_cons, he] using ih

/-- The keys after `assocSet` are the old keys, with `k` appended when new. -/
lemma mem_assocSet_keys {K V : Type} [DecidableEq K] (m : List (K × V)) (k : K) (v : V)
    (x : K) : x ∈ (assocSet m k v).map Prod.fst ↔ x ∈ m.map Prod.fst ∨ x = k := by
  induction m with
  | nil => simp [assocSet]
  | cons e rest ih =>
      by_cases he : e.1 = k
      · simp [assocSet, he]
        tauto
      · simp [assocSet, he, ih]
        tauto

/-- `assocSet` keeps the keys of an association list pairwise distinct. -/
lemma assocSet_keys_nodup {K V : Type} [DecidableEq K] (m : List (K × V)) (k : K) (v : V)
    (h : (m.map Prod.fst).Nodup) : ((assocSet m k v).map Prod.fst).Nodup := by
  induction m with
  | nil => simp [assocSet]
  | cons e rest ih =>
      rw [List.map_cons, List.nodup_cons] at h
      by_cases he : e.1 = k
      · simp only [assocSet, he, if_true, List.map_cons, List.nodup_cons]
        exact ⟨he ▸ h.1, h.2⟩
      · simp only [assocSet, he, if_false, List.map_cons, List.nodup_cons]
        refine ⟨?_, ih h.2⟩
        rw [mem_assocSet_keys]
        rintro (hm | hk)
        · exact h.1 hm
        · exact he hk

/-- `sbFlush` keeps the result keys pairwise distinct. -/
lemma sbFlush_keys_nodup (st : SBState) (h : (st.result.map Prod.fst).Nodup) :
    ((sbFlush st).map Prod.fst).Nodup := by
  cases hc : st.cat with
  | none => simpa [sbFlush, hc] using h
  | some c =>
      cases hb : st.blk with
      | none => simpa [sbFlush, hc, hb] using h
      | some b =>
          by_cases he : st.buffer.isEmpty
          · simpa [sbFlush, hc, hb, he] using h
          · simpa [sbFlush, hc, hb, he] using assocSet_keys_nodup _ _ _ h

/-- `sbStep` keeps the result keys pairwise distinct. -/
lemma sbStep_keys_nodup (d : Char) (st : SBState) (l : List Char)
    (h : (st.result.map Prod.fst).Nodup) :
    (((sbStep d st l).result).map Prod.fst).Nodup := by
  cases hf : findCategory (blockKey d l) with
  | none => simpa [sbStep, hf] using h
  | some c => simpa [sbStep, hf] using sbFlush_keys_nodup st h

/-- Folding the block-segmenter walker keeps the result keys distinct. -/
lemma sbFoldl_keys_nodup (d : Char) (lines : List (List Char)) :
    ∀ st : SBState, (st.result.map Prod.fst).Nodup →
      (((lines.foldl (sbStep d) st).result).map Prod.fst).Nodup := by
  induction lines with
  | nil => exact fun st h => h
  | cons l rest ih =>
      intro st h
      exact ih (sbStep d st l) (sbStep_keys_nodup d st l h)

/-- A line whose key is no registered header token is only buffered. -/
lemma sbStep_nonheader (d : Char) (st : SBState) (l : List Char)
    (h : findCategory (blockKey d l) = none) :
    sbStep d st l = { st with buffer := st.buffer ++ [l] } := by
  simp [sbStep, h]

/-- Folding over non-header lines only extends the buffer. -/
lemma sbFoldl_nonheader (d : Char) (b : List (List Char))
    (h : ∀ l ∈ b, findCategory (blockKey d l) = none) :
    ∀ st : SBState, b.foldl (sbStep d) st = { st with buffer := st.buffer ++ b } := by
  induction b with
  | nil => intro st; simp
  | cons l rest ih =>
      intro st
      rw [List.foldl_cons, sbStep_nonheader d st l (h l (by simp)),
        ih (fun x hx => h x (by simp [hx]))]
      simp

/-- C2 (amended): every `(section, header_token)` key appears at most once
in the Block Segmenter's output, but a repeated header token is
*overwritten*, not concatenated: when the token `tok` opens two blocks with
non-empty bodies `b1` and `b2`, the output maps the key to the cleaned body
of the second occurrence only. -/
theorem splitBlocks_repeat_overwrites (d : Char) (tok cat L0 L1 : List Char)
    (b1 b2 : List (List Char))
    (hcat : findCategory tok = some cat)
    (h0 : blockKey d L0 = tok) (h1 : blockKey d L1 = tok)
    (hb1 : ∀ l ∈ b1, findCategory (blockKey d l) = none)
    (hb2 : ∀ l ∈ b2, findCategory (blockKey d l) = none)
    (hne1 : b1 ≠ []) (hne2 : b2 ≠ []) :
    assocGet (splitBlocksLines d (L0 :: (b1 ++ L1 :: b2))) (cat, tok) =
      some (stripChars (joinNL b2)) ∧
    ∀ lines : List (List Char), ((splitBlocksLines d lines).map Prod.fst).Nodup := by
  constructor
  · have step0 : sbStep d ⟨none, none, [], []⟩ L0 =
        ⟨some cat, some tok, [], []⟩ := by
      simp [sbStep, h0, hcat, sbFlush]
    have fold1 : b1.foldl (sbStep d) ⟨some cat, some tok, [], []⟩ =
        ⟨some cat, some tok, b1, []⟩ := by
      rw [sbFoldl_nonheader d b1 hb1]
      simp
    have step1 : sbStep d ⟨some cat, some tok, b1, []⟩ L1 =
        ⟨some cat, some tok, [],
          assocSet [] (cat, tok) (stripChars (joinNL b1))⟩ := by
      simp [sbStep, h1, hcat, sbFlush, isEmpty_false_of_ne_nil hne1]
    have fold2 : b2.foldl (sbStep d)
        ⟨some cat, some tok, [], assocSet [] (cat, tok) (stripChars (joinNL b1))⟩ =
        ⟨some cat, some tok, b2, assocSet [] (cat, tok) (stripChars (joinNL b1))⟩ := by
      rw [sbFoldl_nonheader d b2 hb2]
      simp
    rw [splitBlocksLines, List.foldl_cons, step0, List.foldl_append, fold1,
      List.foldl_cons, step1, fold2]
    rw [show sbFlush ⟨some cat, some tok, b2,
        assocSet [] (cat, tok) (stripChars (joinNL b1))⟩ =
      assocSet (assocSet [] (cat, tok) (stripChars (joinNL b1))) (cat, tok)
        (stripChars (joinNL b2)) by
        simp [sbFlush, isEmpty_false_of_ne_nil hne2]]
    exact assocGet_assocSet _ _ _
  · intro lines
    exact sbFlush_keys_nodup _ (sbFoldl_keys_nodup d lines ⟨none, none, [], []⟩ (by simp))

/-- C2 witness: the amended theorem applied to the two-`Bilanz` example. -/
theorem splitBlocks_repeat_overwrites_witness :
    findCategory "Bilanz".data = some "Bilanz".data ∧
    assocGet (splitBlocksLines ';' repeatedHeaderLines) ("Bilanz".data, "Bilanz".data) =
      some (stripChars (joinNL ["c2;2".data])) := by
  refine ⟨by decide, ?_⟩
  have h := splitBlocks_repeat_overwrites ';' "Bilanz".data "Bilanz".data
    "Bilanz;x".data "Bilanz;y".data ["c1;1".data] ["c2;2".data]
    (by decide) (by decide) (by decide) (by decide) (by decide)
    (by decide) (by decide)
  exact h.1

/-- A line of a marker-free input has no banner, disclaimer or interval
match. -/
lemma plainLine_spec (l : List Char) (h : plainLine l = true) :
    isBannerLine l = false ∧ isDisclaimerLine l = false ∧ isIntervallLine l = false := by
  have h' := h
  simp only [plainLine, Bool.and_eq_true, Bool.not_eq_true'] at h'
  exact ⟨h'.1.1, h'.1.2, h'.2⟩

/-- A marker-free input has no banner lines. -/
lemma bannerIdxs_eq_nil (ls : List (List Char)) (h : ∀ l ∈ ls, plainLine l = true) :
    bannerIdxs ls = [] := by
  rw [bannerIdxs]
  apply List.filter_eq_nil_iff.mpr
  intro i hi
  rw [List.mem_range] at hi
  have hmem : lineAt ls i ∈ ls := by
    rw [show lineAt ls i = ls[i] by
      simp [lineAt, List.getD_eq_getElem?_getD, List.getElem?_eq_getElem hi]]
    exact List.getElem_mem hi
  simp [(plainLine_spec _ (h _ hmem)).1]

/-- On a marker-free input the skip set of `_clean_csv` is exactly the last
line. -/
lemma cleanSkip_plain (ls : List (List Char)) (h : ∀ l ∈ ls, plainLine l = true)
    (i : ℕ) : cleanSkip ls i = decide (i + 1 = ls.length) := by
  have hline : ∀ j, isBannerLine (lineAt ls j) = false ∧
      isDisclaimerLine (lineAt ls j) = false ∧ isIntervallLine (lineAt ls j) = false := by
    intro j
    by_cases hj : j < ls.length
    · have hmem : lineAt ls j ∈ ls := by
        rw [show lineAt ls j = ls[j] by
          simp [lineAt, List.getD_eq_getElem?_getD, List.getElem?_eq_getElem hj]]
        exact List.getElem_mem hj
      exact plainLine_spec _ (h _ hmem)
    · have hj' : lineAt ls j = [] := by
        simp [lineAt, List.getD_eq_getElem?_getD, List.getElem?_eq_none (Nat.le_of_not_lt hj)]
      rw [hj']
      refine ⟨by decide, by decide, by decide⟩
  rw [cleanSkip, bannerIdxs_eq_nil ls h]
  simp [(hline i).1, (hline i).2.1, (hline i).2.2, (hline (i + 1)).2.1]

/-- C3 (amended): the Report Cleaner strips banner blocks, disclaimer lines
and interval-notice lines, and *in addition* always removes the final line
of its input; on an input free of all markers it removes exactly the last
line, so cleaning twice removes two lines and the cleaner is not idempotent
(see the counterexample). -/
theorem cleanLines_plain_drops_last (ls : List (List Char))
    (h : ∀ l ∈ ls, plainLine l = true) : cleanLines ls = ls.dropLast := by
  rcases Nat.eq_zero_or_pos ls.length with h0 | hpos
  · rw [List.length_eq_zero.mp h0]
    rfl
  · obtain ⟨m, hm⟩ : ∃ m, ls.length = m + 1 :=
      ⟨ls.length - 1, (Nat.succ_pred_eq_of_pos hpos).symm⟩
    rw [cleanLines]
    have step1 : (List.range ls.length).filterMap
        (fun i => if cleanSkip ls i then none else some (lineAt ls i)) =
        (List.range ls.length).filterMap
        (fun i => if i + 1 = ls.length then none else some (lineAt ls i)) := by
      apply List.filterMap_congr
      intro i _
      rw [cleanSkip_plain ls h i]
      by_cases hc : i + 1 = ls.length
      · simp [hc]
      · simp [hc]
    rw [step1, hm]
    rw [show List.range (m + 1) = List.range m ++ [m] from List.range_succ (n := m) ▸ rfl]
    rw [List.filterMap_append]
    have hlast : ([m] : List ℕ).filterMap
        (fun i => if i + 1 = m + 1 then none else some (lineAt ls i)) = [] := by
      simp
    have hmain : (List.range m).filterMap
        (fun i => if i + 1 = m + 1 then none else some (lineAt ls i)) =
        (List.range m).map (fun i => lineAt ls i) := by
      rw [List.filterMap_eq_map_iff_forall_eq_some]
      intro i hi
      rw [List.mem_range] at hi
      simp [Nat.ne_of_lt (Nat.succ_lt_succ hi)]
    rw [hlast, hmain, List.append_nil]
    have htake : ∀ k, k ≤ ls.length →
        (List.range k).map (fun i => lineAt ls i) = ls.take k := by
      intro k
      induction k with
      | zero => intro _; simp
      | succ j ih =>
          intro hk
          have hj : j < ls.length := Nat.lt_of_lt_of_le (Nat.lt_succ_self j) hk
          rw [show List.range (j + 1) = List.range j ++ [j] from
            List.range_succ (n := j) ▸ rfl]
          rw [List.map_append, ih (Nat.le_of_lt hj), List.take_succ]
          simp [lineAt, List.getD_eq_getElem?_getD, List.getElem?_eq_getElem hj]
    rw [htake m (by rw [hm]; exact Nat.le_succ m), List.dropLast_eq_take, hm,
      Nat.add_sub_cancel]

/-- C3 witness: on the marker-free three-line input the cleaner returns the
first two lines. -/
theorem cleanLines_plain_drops_last_witness :
    (∀ l ∈ [ "a".data, "b".data, "c".data ], plainLine l = true) ∧
    cleanLines ["a".data, "b".data, "c".data] =
      (["a".data, "b".data, "c".data] : List (List Char)).dropLast := by
  exact ⟨by decide, cleanLines_plain_drops_last _ (by decide)⟩

/-- The dispatch chain falls through to the median for every strategy
outside the known five, and for `nearest` without a reference time. -/
lemma applyStrategy_unknown (strategy : List Char) (filtered : List ARow)
    (values : List ℚ)
    (h1 : strategy ≠ "median".data) (h2 : strategy ≠ "mean".data)
    (h3 : strategy ≠ "first".data) (h4 : strategy ≠ "last".data) :
    applyStrategy strategy none filtered values = some (pandasMedian values) := by
  rw [applyStrategy, if_neg (by simp), if_neg h1, if_neg h2, if_neg h3, if_neg h4]

/-- The dispatch chain hits the median branch for `"median"`. -/
lemma applyStrategy_median (filtered : List ARow) (values : List ℚ) :
    applyStrategy "median".data none filtered values = some (pandasMedian values) := by
  rw [applyStrategy, if_neg (by simp), if_pos rfl]

/-- C4 (amended): when the configured strategy is none of
`median`/`mean`/`first`/`last` — which includes `nearest` when no reference
time of day is supplied — `aggregate_value` does *not* return "no value":
it silently behaves exactly like the `median` strategy. -/
theorem aggregateValue_unknown_falls_back_to_median (strategy : List Char)
    (catPat paramPat : List Char) (pm : List Char → List Char → Bool)
    (rows : List ARow)
    (h1 : strategy ≠ "median".data) (h2 : strategy ≠ "mean".data)
    (h3 : strategy ≠ "first".data) (h4 : strategy ≠ "last".data) :
    aggregateValue strategy none catPat paramPat pm rows =
      aggregateValue "median".data none catPat paramPat pm rows := by
  by_cases hr : rows.isEmpty
  · simp [aggregateValue, hr]
  · by_cases hf : (rows.filter (rowMask catPat paramPat pm)).isEmpty
    · simp [aggregateValue, hr, hf]
    · by_cases hv : ((rows.filter (rowMask catPat paramPat pm)).filterMap
          (fun r => toNumeric r.value)).isEmpty
      · simp [aggregateValue, hr, hf, hv]
      · simp only [aggregateValue, hr, hf, hv, Bool.false_eq_true, if_false]
        rw [applyStrategy_unknown _ _ _ h1 h2 h3 h4, applyStrategy_median]

/-- C4 witness: the amended theorem applied to the strategy `"bogus"` on the
`1, 2, 3, 100` example rows, where both sides equal the median `2.5`. -/
theorem aggregateValue_unknown_falls_back_to_median_witness :
    ("bogus".data ≠ "median".data ∧ "bogus".data ≠ "mean".data ∧
      "bogus".data ≠ "first".data ∧ "bogus".data ≠ "last".data) ∧
    aggregateValue "bogus".data none ".*".data "x".data (fun _ _ => true) aggExampleRows =
      aggregateValue "median".data none ".*".data "x".data (fun _ _ => true)
        aggExampleRows := by
  refine ⟨⟨by decide, by decide, by decide, by decide⟩, ?_⟩
  exact aggregateValue_unknown_falls_back_to_median "bogus".data ".*".data "x".data
    (fun _ _ => true) aggExampleRows (by decide) (by decide) (by decide) (by decide)

/-- Rows that all fail the qualification test are scanned past without a
result, regardless of what follows. -/
lemma weightLoop_skips_unqualified (pre : List WRow)
    (h : ∀ r' ∈ pre, weightQualifies r' = false) :
    ∀ tail : List WRow,
      weightLoop (pre.filter weightRowMaskB ++ tail) = weightLoop tail := by
  induction pre with
  | nil => intro tail; rfl
  | cons r' rest ih =>
      intro tail
      have hr' := h r' (by simp)
      have hrest : ∀ x ∈ rest, weightQualifies x = false :=
        fun x hx => h x (by simp [hx])
      by_cases hm : weightRowMaskB r'
      · rw [show (r' :: rest).filter weightRowMaskB = r' :: rest.filter weightRowMaskB by
          simp [List.filter_cons, hm]]
        rw [List.cons_append]
        cases hv : toWeightNum r'.value with
        | none => rw [weightLoop, hv]; exact ih hrest tail
        | some w =>
            have hw : ¬(20 < w ∧ w < 300) := by
              intro hcon
              rw [weightQualifies, hm] at hr'
              simp only [Bool.true_and, hv] at hr'
              rw [decide_eq_false_iff_not] at hr'
              exact hr' hcon
            rw [weightLoop, hv]
            simp only [if_neg hw]
            exact ih hrest tail
      · rw [show (r' :: rest).filter weightRowMaskB = rest.filter weightRowMaskB by
          simp [List.filter_cons, hm]]
        exact ih hrest tail

/-- C9 (amended): with no manually entered weight, `_get_patient_weight`
returns the first value — in event-table row order — among rows whose
`source_type` contains `PatientInfo` or `Grösse/Gewicht` and whose
`parameter` *fully* matches `^Gewicht(?:\s*/\s*kg)?$` (the cell is exactly
`Gewicht`, or `Gewicht / kg` with flexible spacing, case-insensitive), that
parses as a number (comma as decimal separator) strictly between 20 and
300; rows at exactly 20 or 300, unparsable rows and mask failures are
skipped, and `none` is returned when no row qualifies. -/
theorem patientWeight_first_qualifying (rows1 rows2 : List WRow) (r : WRow) (w : ℚ)
    (h1 : ∀ r' ∈ rows1, weightQualifies r' = false)
    (hm : weightRowMaskB r = true)
    (hv : toWeightNum r.value = some w)
    (hrange : 20 < w ∧ w < 300) :
    getPatientWeight none (rows1 ++ r :: rows2) = some w ∧
    getPatientWeight none rows1 = none := by
  constructor
  · show weightLoop ((rows1 ++ r :: rows2).filter weightRowMaskB) = some w
    rw [List.filter_append, weightLoop_skips_unqualified rows1 h1]
    rw [show (r :: rows2).filter weightRowMaskB = r :: rows2.filter weightRowMaskB by
      simp [List.filter_cons, hm]]
    rw [weightLoop, hv]
    simp only [if_pos hrange]
  · show weightLoop (rows1.filter weightRowMaskB) = none
    have := weightLoop_skips_unqualified rows1 h1 []
    rw [List.append_nil] at this
    rw [this]
    rfl

/-- C9 witness: the amended theorem applied to a table whose first candidate
is at the excluded boundary 20, whose second is unparsable, and whose third
is `85,5` — the returned weight is `85.5`. -/
theorem patientWeight_first_qualifying_witness :
    (∀ r' ∈ [⟨"PatientInfo".data, "Gewicht".data, PyVal.num 20⟩,
             ⟨"Grösse/Gewicht".data, "Gewicht / kg".data, PyVal.text "abc".data⟩],
      weightQualifies r' = false) ∧
    getPatientWeight none
      ([⟨"PatientInfo".data, "Gewicht".data, PyVal.num 20⟩,
        ⟨"Grösse/Gewicht".data, "Gewicht / kg".data, PyVal.text "abc".data⟩] ++
        ⟨"PatientInfo".data, "Gewicht".data, PyVal.text "85,5".data⟩ ::
          [⟨"Vitals".data, "HF".data, PyVal.num 70⟩]) = some (mkRat 855 10) := by
  refine ⟨by decide, ?_⟩
  exact (patientWeight_first_qualifying _ _ _ (mkRat 855 10)
    (by decide) (by decide) (by decide) (by decide)).1

/-- C5: for a rate-based medication (other than the pass-through special
case vasopressin) with matched rows, surviving bolus exclusion, a non-empty
numeric rate column, an extracted concentration `c` (µg/ml) and a resolved
patient weight `w` (kg), the Dose Normalizer returns exactly
`round((median_rate * c) / (60 * w), 4)` µg/kg/min. -/
theorem medicationRate_formula (pmatch : List Char → Bool) (field : List Char)
    (stateWeight : Option ℚ) (allRows : List WRow) (rows : List MedRow) (c w : ℚ)
    (hfield : field ≠ "vasopressin".data)
    (hne : rows ≠ [])
    (hf : medFiltered pmatch rows ≠ [])
    (hk : medKept pmatch rows ≠ [])
    (hr : medRates pmatch rows ≠ [])
    (hc : extractConcentration ((medKept pmatch rows).map (fun r => r.parameter)) field =
      some c)
    (hw : getPatientWeight stateWeight allRows = some w) :
    getMedicationRate pmatch field stateWeight allRows rows =
      some (roundTo 4 (pandasMedian (medRates pmatch rows) * c / (60 * w))) := by
  rw [getMedicationRate, isEmpty_false_of_ne_nil hne, isEmpty_false_of_ne_nil hf,
    isEmpty_false_of_ne_nil hk, isEmpty_false_of_ne_nil hr]
  simp only [Bool.false_eq_true, if_false]
  rw [if_neg hfield, hc, hw]

/-- C5 witness: the spec's example — one matched `Norepinephrin Perfusor
5 mg / 50 ml` row at 10 ml/h, weight 80 kg — yields
`(10 * 100) / (60 * 80)` rounded to 4 places, i.e. `0.2083` µg/kg/min. -/
theorem medicationRate_formula_witness :
    ("norepinephrine".data ≠ "vasopressin".data ∧
      doseExampleRows ≠ [] ∧
      extractConcentration
        ((medKept (fun p => containsCI p "norepinephrin".data) doseExampleRows).map
          (fun r => r.parameter)) "norepinephrine".data = some 100 ∧
      getPatientWeight none weight80Rows = some 80) ∧
    getMedicationRate (fun p => containsCI p "norepinephrin".data) "norepinephrine".data
      none weight80Rows doseExampleRows = some (2083 / 10000) := by
  have hconc : extractConcentration
      ((medKept (fun p => containsCI p "norepinephrin".data) doseExampleRows).map
        (fun r => r.parameter)) "norepinephrine".data = some 100 := by
    have h1 : extractConcentration
        ((medKept (fun p => containsCI p "norepinephrin".data) doseExampleRows).map
          (fun r => r.parameter)) "norepinephrine".data = some ((5 : ℚ) * 1000 / 50) := rfl
    rw [h1]
    norm_num
  have hw : getPatientWeight none weight80Rows = some 80 := by decide
  refine ⟨⟨by decide, by decide, hconc, hw⟩, ?_⟩
  have h := medicationRate_formula (fun p => containsCI p "norepinephrin".data)
    "norepinephrine".data none weight80Rows doseExampleRows 100 80
    (by decide) (by decide) (by decide) (by decide) (by decide) hconc hw
  rw [h]
  rw [show medRates (fun p => containsCI p "norepinephrin".data) doseExampleRows =
    [10] from rfl]
  have hmed : pandasMedian [10] = 10 := by norm_num [pandasMedian, sortRat, insertSorted]
  rw [hmed]
  norm_num [roundTo, roundHalfEven]

/-- The `i`-th entry of `enumFrom`. -/
lemma getElem?_enumFrom_self {α : Type} :
    ∀ (n : ℕ) (l : List α) (i : ℕ),
      (List.enumFrom n l)[i]? = l[i]?.map (fun a => (n + i, a)) := by
  intro n l
  induction l generalizing n with
  | nil => intro i; simp
  | cons a t ih =>
      intro i
      cases i with
      | zero => simp
      | succ j =>
          simp only [List.enumFrom, List.getElem?_cons_succ]
          rw [ih (n + 1) j]
          cases t[j]? with
          | none => rfl
          | some b => simp [Nat.add_assoc, Nat.add_comm 1 j]

/-- The `i`-th entry of `enum`. -/
lemma getElem?_enum_self {α : Type} (l : List α) (i : ℕ) :
    l.enum[i]? = l[i]?.map (fun a => (i, a)) := by
  rw [List.enum, getElem?_enumFrom_self 0 l i]
  cases l[i]? with
  | none => rfl
  | some a => simp

/-- C6: for every sufficiently long medication value row, the parser emits
exactly one event per extracted start timestamp, and the `i`-th event pairs
the `i`-th start with the `i`-th stop and the `i`-th rate (absent when those
lists are shorter); its `value` is the rate when present, else the raw
concentration cell. -/
theorem medication_events_zip_positionally (cols : MedCols) (category : List Char)
    (line : List (List Char)) (hlen : maxColIdx cols < line.length) :
    (processMedLine cols category line).length =
      (extractTimestamps (line.getD cols.start [])).length ∧
    ∀ i : ℕ, (processMedLine cols category line)[i]? =
      ((extractTimestamps (line.getD cols.start []))[i]?).map (fun st =>
        { parameter := line.getD cols.medication []
          category := category
          concentration := line.getD cols.concentration []
          application := line.getD cols.application []
          timestamp := st
          stop := (extractTimestamps (line.getD cols.stop []))[i]?
          rate := (extractRates (line.getD cols.rate []))[i]?
          value := match (extractRates (line.getD cols.rate []))[i]? with
            | some r => PyVal.num r
            | none => PyVal.text (line.getD cols.concentration []) }) := by
  rw [processMedLine, if_neg (Nat.not_le.mpr hlen)]
  constructor
  · rw [List.length_map, List.enum_length]
  · intro i
    rw [List.getElem?_map, getElem?_enum_self]
    cases (extractTimestamps (line.getD cols.start []))[i]? with
    | none => rfl
    | some st => rfl

/-- C6 witness: a row whose start cell holds two timestamp matches and whose
rate cell holds two numbers yields exactly two events, rates zipped
positionally to starts. -/
theorem medication_events_zip_positionally_witness :
    maxColIdx medExampleCols < medExampleLine.length ∧
    (processMedLine medExampleCols "Katecholamine".data medExampleLine).length =
      (extractTimestamps (medExampleLine.getD medExampleCols.start [])).length ∧
    (extractTimestamps (medExampleLine.getD medExampleCols.start [])).length = 2 ∧
    (extractRates (medExampleLine.getD medExampleCols.rate [])) =
      [mkRat 5 1, mkRat 10 1] := by
  refine ⟨by decide,
    (medication_events_zip_positionally medExampleCols "Katecholamine".data
      medExampleLine (by decide)).1, by decide, by decide⟩

end RedcapMcs
